import Mathlib

/-!
Verification of the `online_retail_simulator` engine: a shallow embedding in
Lean 4 of the rule-based generators (`simulator_rule_based.py`,
`simulate/metrics_rule_based.py`), the enrichment pipeline
(`enrichment_application.py`, `enrichment_impact_library.py`), backend
dispatch (`core/backends.py`, `simulate_characteristics.py`) and the job
listing/cleanup operations (`manage/jobs.py`), together with theorems about
the properties the specification states.

Modelling conventions:
* Python's global `random` module (a Mersenne Twister) is modelled
  abstractly: the global generator state is a pair of a raw draw stream
  `Nat → Nat` and a position; `random.seed(s)` installs the stream `g s`
  where `g : Nat → Nat → Nat` is an arbitrary deterministic seeding
  function over which all theorems quantify.  Each primitive draw consumes
  one stream value, so any two runs from the same seeded state see the
  same draws — exactly the reproducibility contract of `random.seed`.
* Python floats are modelled as exact rationals (`ℚ`); `round(x, 2)` is
  round-half-to-even at two decimals, `int(x)` is truncation toward zero.
* `"YYYY-MM-DD"` date strings are modelled as day numbers (`Nat`); both
  sides of every comparison in the source first parse with `strptime`, and
  day numbers are order-isomorphic to those parsed dates.
-/

/-- Global state of Python's `random` module: the seeded raw-draw stream and
the current position in it. -/
structure RState where
  stream : Nat → Nat
  pos : Nat

/-- `random.seed(s)`: the state becomes a function of the seed alone
(`g` is the abstract seeding function of the Mersenne Twister). -/
def pySeed (g : Nat → Nat → Nat) (s : Nat) : RState :=
  ⟨g s, 0⟩

/-- Consume one raw value from the stream. -/
def rawDraw (s : RState) : Nat × RState :=
  (s.stream s.pos, ⟨s.stream, s.pos + 1⟩)

/-- `random.random()`: a value in `[0, 1)` with denominator `2^53`
(CPython returns `getrandbits(53) / 2^53`). -/
def pyRandom (s : RState) : ℚ × RState :=
  ((((rawDraw s).1 % 2 ^ 53 : Nat) : ℚ) / (2 ^ 53 : ℚ), (rawDraw s).2)

/-- `random.choice(seq)` for a sequence of length `n`: the chosen index
(`_randbelow(n)`, modelled as the raw draw reduced mod `n`). -/
def pyChoiceIdx (s : RState) (n : Nat) : Nat × RState :=
  ((rawDraw s).1 % n, (rawDraw s).2)

/-- `random.uniform(a, b) = a + (b - a) * random()`. -/
def pyUniform (s : RState) (a b : ℚ) : ℚ × RState :=
  (a + (b - a) * (pyRandom s).1, (pyRandom s).2)

/-- Python `int(x)`: truncation toward zero. -/
def pyInt (q : ℚ) : Int :=
  if 0 ≤ q then ⌊q⌋ else -⌊-q⌋

/-- Round-half-to-even to the nearest integer (Python's `round` tie rule). -/
def roundHalfEven (q : ℚ) : Int :=
  let f := ⌊q⌋
  let r := q - (f : ℚ)
  if r < 1 / 2 then f
  else if 1 / 2 < r then f + 1
  else if f % 2 = 0 then f else f + 1

/-- Python `round(x, 2)`. -/
def pyRound2 (q : ℚ) : ℚ :=
  ((roundHalfEven (q * 100) : ℚ)) / 100

/-- Zero-padded decimal rendering, as in the format specifier `{n:0wd}`. -/
def padNum (width n : Nat) : String :=
  let digits := toString n
  let zeros := String.mk (List.replicate (width - digits.length) '0')
  zeros ++ digits

/-- Transaction ids `TXN000001`, … (`f"TXN{counter:06d}"`). -/
def txnId (n : Nat) : String :=
  "TXN" ++ padNum 6 n

/-- Product ids `PROD0001`, … (`f"PROD{i+1:04d}"`). -/
def prodId (n : Nat) : String :=
  "PROD" ++ padNum 4 n

/-- `random.choices([1,2,3,4,5], weights=[50,25,15,7,3])`: cumulative
weights are `[50, 75, 90, 97, 100]` and the drawn value is
`population[bisect(cum_weights, u)]` for `u = random() * 100`. -/
def weightedIdx (u : ℚ) : Nat :=
  if u < 50 then 0
  else if u < 75 then 1
  else if u < 90 then 2
  else if u < 97 then 3
  else 4

/-- The quantity draw of the sales generator: one call of `random.choices`
on population `[1,2,3,4,5]` with weights `[50,25,15,7,3]` (total 100). -/
def pyChoicesQty (s : RState) : Nat × RState :=
  ([1, 2, 3, 4, 5].getD (weightedIdx ((pyRandom s).1 * 100)) 1, (pyRandom s).2)

/-- Selection loop of `random.sample`: repeatedly pick a position among the
remaining pool elements and remove the chosen element, so that the `k`
results are drawn without replacement. -/
def sampleAux : Nat → List Nat → RState → List Nat × RState
  | 0, _, s => ([], s)
  | k + 1, remaining, s =>
    let j := (rawDraw s).1 % remaining.length
    let x := remaining.getD j 0
    let rest := sampleAux k (remaining.erase x) (rawDraw s).2
    (x :: rest.1, rest.2)

/-- `random.sample(range(n), k)` for `0 ≤ k ≤ n`: `k` distinct indices from
`[0, n)`, a deterministic function of the seeded state.  The caller checks
the `0 ≤ k ≤ n` bound (outside it, `random.sample` raises `ValueError`). -/
def pySample (s : RState) (n k : Nat) : List Nat × RState :=
  sampleAux k (List.range n) s

/-! ## Data model -/

/-- A product record, as produced by `generate_product_data`. -/
structure Product where
  product_id : String
  name : String
  category : String
  price : ℚ
deriving DecidableEq, Repr

/-- A product record carrying the auxiliary `enriched` marker added by
`assign_enrichment`. -/
structure ProductE where
  product_id : String
  name : String
  category : String
  price : ℚ
  enriched : Bool
deriving DecidableEq, Repr

/-- A sales transaction row, as produced by `generate_sales_data`. -/
structure Sale where
  transaction_id : String
  product_id : String
  product_name : String
  category : String
  quantity : Int
  unit_price : ℚ
  revenue : ℚ
  date : Nat
deriving DecidableEq, Repr

/-- A metrics row of `simulate_metrics_rule_based`: one per (product, day),
all product characteristics plus `date`, `quantity`, `revenue` — and no
transaction id. -/
structure MetricsRow where
  product_id : String
  name : String
  category : String
  price : ℚ
  date : Nat
  quantity : Int
  revenue : ℚ
deriving DecidableEq, Repr

/-! ## Rule-based product generation (`simulator_rule_based.py`) -/

/-- The fixed `CATEGORIES` list. -/
def CATEGORIES : List String :=
  ["Electronics", "Clothing", "Home & Garden", "Books",
   "Sports & Outdoors", "Toys & Games", "Food & Beverage", "Health & Beauty"]

/-- The fixed `PRODUCT_NAMES` mapping from category to name list. -/
def PRODUCT_NAMES : List (String × List String) :=
  [("Electronics", ["Laptop", "Smartphone", "Tablet", "Headphones", "Monitor", "Keyboard", "Mouse", "Webcam"]),
   ("Clothing", ["T-Shirt", "Jeans", "Jacket", "Sweater", "Dress", "Shorts", "Hoodie", "Socks"]),
   ("Home & Garden", ["Chair", "Table", "Lamp", "Rug", "Curtains", "Vase", "Mirror", "Clock"]),
   ("Books", ["Novel", "Textbook", "Cookbook", "Biography", "Comic", "Magazine", "Journal", "Guide"]),
   ("Sports & Outdoors", ["Ball", "Bike", "Tent", "Backpack", "Yoga Mat", "Weights", "Running Shoes", "Water Bottle"]),
   ("Toys & Games", ["Board Game", "Puzzle", "Action Figure", "Doll", "Building Blocks", "Card Game", "Stuffed Animal", "Remote Car"]),
   ("Food & Beverage", ["Coffee", "Tea", "Snacks", "Chocolate", "Juice", "Cookies", "Nuts", "Energy Bar"]),
   ("Health & Beauty", ["Shampoo", "Lotion", "Soap", "Toothpaste", "Perfume", "Makeup", "Vitamins", "Sunscreen"])]

/-- The fixed `PRICE_RANGES` mapping from category to `(min, max)` price. -/
def PRICE_RANGES : List (String × (ℚ × ℚ)) :=
  [("Electronics", (50, 1500)), ("Clothing", (15, 200)),
   ("Home & Garden", (20, 500)), ("Books", (10, 60)),
   ("Sports & Outdoors", (15, 300)), ("Toys & Games", (10, 100)),
   ("Food & Beverage", (5, 50)), ("Health & Beauty", (8, 80))]

/-- The `for i in range(n_products)` loop body of `generate_product_data`:
draw a category, a name from that category, a uniform price rounded to two
decimals, and assign the sequential id `PROD{i+1:04d}`. -/
def productLoop : Nat → Nat → RState → List Product × RState
  | _, 0, s => ([], s)
  | i, n + 1, s =>
    let category := CATEGORIES.getD (pyChoiceIdx s CATEGORIES.length).1 ""
    let s1 := (pyChoiceIdx s CATEGORIES.length).2
    let names := (PRODUCT_NAMES.lookup category).getD []
    let name := names.getD (pyChoiceIdx s1 names.length).1 ""
    let s2 := (pyChoiceIdx s1 names.length).2
    let pr := (PRICE_RANGES.lookup category).getD (0, 0)
    let price := pyRound2 (pyUniform s2 pr.1 pr.2).1
    let s3 := (pyUniform s2 pr.1 pr.2).2
    let rest := productLoop (i + 1) n s3
    ({ product_id := prodId (i + 1), name := name, category := category,
       price := price } :: rest.1, rest.2)

/-- `generate_product_data(n_products, seed)`: reseeds the global source
when a seed is given, then runs the generation loop. -/
def generate_product_data (g : Nat → Nat → Nat) (n_products : Nat)
    (seed : Option Nat) (s0 : RState) : List Product × RState :=
  let s := match seed with
    | some sd => pySeed g sd
    | none => s0
  productLoop 0 n_products s

/-! ## Rule-based sales generation (`generate_sales_data`) -/

/-- The sale-row dictionary literal of `generate_sales_data`: transaction
id from the (already incremented) counter, product fields copied, drawn
quantity, and `revenue = round(product.price * quantity, 2)`. -/
def mkSaleRow (product : Product) (date txnNum quantity : Nat) : Sale :=
  { transaction_id := txnId txnNum,
    product_id := product.product_id,
    product_name := product.name,
    category := product.category,
    quantity := quantity,
    unit_price := product.price,
    revenue := pyRound2 (product.price * quantity),
    date := date }

/-- The `for product in products` inner loop of `generate_sales_data`:
Bernoulli occurrence draw, then on success a weighted quantity draw, the
revenue computation and the next transaction id.  Returns the emitted
rows, the updated counter and the updated state. -/
def salesLoop (sale_probability : ℚ) : List Product → Nat → Nat → RState →
    List Sale × Nat × RState
  | [], _, counter, s => ([], counter, s)
  | product :: rest, date, counter, s =>
    let u := (pyRandom s).1
    let s1 := (pyRandom s).2
    if u < sale_probability then
      let quantity := (pyChoicesQty s1).1
      let s2 := (pyChoicesQty s1).2
      let tail := salesLoop sale_probability rest date (counter + 1) s2
      (mkSaleRow product date (counter + 1) quantity :: tail.1,
        tail.2.1, tail.2.2)
    else
      salesLoop sale_probability rest date counter s1

/-- The `while current_date <= end_date` outer loop, run for a number of
days computed from the inclusive date range. -/
def daysLoop (products : List Product) (sale_probability : ℚ) :
    Nat → Nat → Nat → RState → List Sale × Nat × RState
  | 0, _, counter, s => ([], counter, s)
  | n + 1, date, counter, s =>
    let day := salesLoop sale_probability products date counter s
    let tail := daysLoop products sale_probability n (date + 1) day.2.1 day.2.2
    (day.1 ++ tail.1, tail.2.1, tail.2.2)

/-- `generate_sales_data(products, date_start, date_end, seed,
sale_probability)`: reseeds when a seed is given, then walks every day of
the inclusive range (none when `date_end < date_start`), visiting products
in input order with the transaction counter starting at 0. -/
def generate_sales_data (g : Nat → Nat → Nat) (products : List Product)
    (date_start date_end : Nat) (seed : Option Nat) (sale_probability : ℚ)
    (s0 : RState) : List Sale × RState :=
  let s := match seed with
    | some sd => pySeed g sd
    | none => s0
  let out := daysLoop products sale_probability
    (date_end + 1 - date_start) date_start 0 s
  (out.1, out.2.2)

/-- The generation pipeline of the determinism property:
`generate_product_data(n, seed)` followed by
`generate_sales_data(products, date_start, date_end, seed,
sale_probability)`, threading the global random state. -/
def generationPipeline (g : Nat → Nat → Nat) (seed n date_start date_end : Nat)
    (sale_probability : ℚ) (s0 : RState) : List Product × List Sale :=
  let (products, s1) := generate_product_data g n (some seed) s0
  let (sales, _) := generate_sales_data g products date_start date_end
    (some seed) sale_probability s1
  (products, sales)

/-! ## Rule-based metrics generation (`simulate/metrics_rule_based.py`) -/

/-- The inner product loop of `simulate_metrics_rule_based`: one row per
product per day, with `quantity = 0, revenue = 0.0` when the occurrence
draw fails, and no transaction id at all. -/
def metricsLoop (sale_prob : ℚ) : List Product → Nat → RState →
    List MetricsRow × RState
  | [], _, s => ([], s)
  | prod :: rest, date, s =>
    let u := (pyRandom s).1
    let s1 := (pyRandom s).2
    let qrs : (Int × ℚ) × RState :=
      if u < sale_prob then
        (((pyChoicesQty s1).1, pyRound2 (prod.price * (pyChoicesQty s1).1)),
          (pyChoicesQty s1).2)
      else
        ((0, 0), s1)
    let row : MetricsRow :=
      { product_id := prod.product_id, name := prod.name,
        category := prod.category, price := prod.price,
        date := date, quantity := qrs.1.1, revenue := qrs.1.2 }
    let tail := metricsLoop sale_prob rest date qrs.2
    (row :: tail.1, tail.2)

/-- The day loop of `simulate_metrics_rule_based`. -/
def metricsDaysLoop (products : List Product) (sale_prob : ℚ) :
    Nat → Nat → RState → List MetricsRow × RState
  | 0, _, s => ([], s)
  | n + 1, date, s =>
    let day := metricsLoop sale_prob products date s
    let tail := metricsDaysLoop products sale_prob n (date + 1) day.2
    (day.1 ++ tail.1, tail.2)

/-- `simulate_metrics_rule_based(product_characteristics, config)`: reseeds
when a seed is configured, then emits one metrics row for every
(day, product) pair of the inclusive date range. -/
def simulate_metrics_rule_based (g : Nat → Nat → Nat)
    (product_characteristics : List Product) (date_start date_end : Nat)
    (sale_prob : ℚ) (seed : Option Nat) (s0 : RState) :
    List MetricsRow × RState :=
  let s := match seed with
    | some sd => pySeed g sd
    | none => s0
  metricsDaysLoop product_characteristics sale_prob
    (date_end + 1 - date_start) date_start s

/-! ## Enrichment assignment (`enrichment_application.py`) -/

/-- Tag a product with its `enriched` flag. -/
def tagEnriched (p : Product) (e : Bool) : ProductE :=
  { product_id := p.product_id, name := p.name, category := p.category,
    price := p.price, enriched := e }

/-- `assign_enrichment(products, fraction, seed)`: reseeds when a seed is
given, computes `n_enriched = int(len(products) * fraction)` (truncation
toward zero), samples that many distinct indices via
`random.sample(range(len(products)), n_enriched)` — which raises
`ValueError` unless `0 ≤ n_enriched ≤ len(products)` — and returns a copy
of the product list with each element tagged
`enriched := index ∈ drawn set`.  No fraction validation is performed. -/
def assign_enrichment (g : Nat → Nat → Nat) (products : List Product)
    (fraction : ℚ) (seed : Option Nat) (s0 : RState) :
    Except String (List ProductE × RState) :=
  let s := match seed with
    | some sd => pySeed g sd
    | none => s0
  let n := products.length
  let n_enriched : Int := pyInt ((n : ℚ) * fraction)
  if 0 ≤ n_enriched ∧ n_enriched ≤ (n : Int) then
    let smp := pySample s n n_enriched.toNat
    Except.ok ((products.enum.map fun ip =>
      tagEnriched ip.2 (decide (ip.1 ∈ smp.1))), smp.2)
  else
    Except.error "Sample larger than population or is negative"

/-- `apply_enrichment_to_sales(sales, enriched_products, enrichment_start,
effect_function, **kwargs)`: builds the treated product-id set, and maps
each sale row to the effect function's result when its product id is
treated, passing the row through unchanged otherwise.  Effect parameters
are captured in the `effect_function` closure; the engine hands each
effect call the cutover date. -/
def apply_enrichment_to_sales (sales : List Sale)
    (enriched_products : List ProductE) (enrichment_start : Nat)
    (effect_function : Sale → Nat → Sale) : List Sale :=
  let enriched_ids :=
    (enriched_products.filter (·.enriched)).map (·.product_id)
  sales.map fun sale =>
    if sale.product_id ∈ enriched_ids then
      effect_function sale enrichment_start
    else
      sale

/-! ## Built-in effect functions (`enrichment_impact_library.py`) -/

/-- `quantity_boost(sale, enrichment_start, effect_size)`: on or after the
cutover, `quantity = int(quantity * (1 + effect_size))` and
`revenue = round(quantity * unit_price, 2)`; strictly before the cutover
the row is returned unchanged. -/
def quantity_boost (sale : Sale) (enrichment_start : Nat)
    (effect_size : ℚ) : Sale :=
  if enrichment_start ≤ sale.date then
    let q := pyInt ((sale.quantity : ℚ) * (1 + effect_size))
    { sale with quantity := q, revenue := pyRound2 ((q : ℚ) * sale.unit_price) }
  else
    sale

/-- `probability_boost` delegates to `quantity_boost`. -/
def probability_boost (sale : Sale) (enrichment_start : Nat)
    (effect_size : ℚ) : Sale :=
  quantity_boost sale enrichment_start effect_size

/-- The ramp factor of `combined_boost`:
`min(1.0, days_since_start / 7.0)`. -/
def rampFactor (days : Nat) : ℚ :=
  min 1 ((days : ℚ) / 7)

/-- The `adjusted_effect` of `combined_boost`:
`effect_size * ramp_factor`. -/
def adjustedEffect (effect_size : ℚ) (days : Nat) : ℚ :=
  effect_size * rampFactor days

/-- `combined_boost(sale, enrichment_start, effect_size)`: on or after the
cutover the effect size is scaled by the 7-day ramp factor, then applied
exactly as in `quantity_boost`. -/
def combined_boost (sale : Sale) (enrichment_start : Nat)
    (effect_size : ℚ) : Sale :=
  if enrichment_start ≤ sale.date then
    let days_since_start := sale.date - enrichment_start
    let adjusted_effect := adjustedEffect effect_size days_since_start
    let q := pyInt ((sale.quantity : ℚ) * (1 + adjusted_effect))
    { sale with quantity := q, revenue := pyRound2 ((q : ℚ) * sale.unit_price) }
  else
    sale

/-! ## Backend dispatch (`core/backends.py`, `simulate_characteristics.py`) -/

/-- The recognized backend selector keys. -/
inductive BKey where
  | RULE
  | SYNTHESIZER
deriving DecidableEq, Repr

/-- Registration order of the backend classes: the `@BackendRegistry.register`
decorators run for `RuleBackend` first, then `SynthesizerBackend`, so the
registry dictionary iterates in that order. -/
def registeredBackends : List BKey :=
  [BKey.RULE, BKey.SYNTHESIZER]

/-- The top-level keys present in a resolved configuration. -/
structure Config where
  hasRule : Bool
  hasSynth : Bool
deriving DecidableEq, Repr

/-- Whether a backend's trigger key is present in the configuration. -/
def keyPresent (config : Config) : BKey → Bool
  | BKey.RULE => config.hasRule
  | BKey.SYNTHESIZER => config.hasSynth

/-- `BackendRegistry.detect_backend(config)`: iterates the registered
backends in registration order and instantiates the first whose key is in
the config; raises `ValueError` only when none matches. -/
def detect_backend (config : Config) : Except String BKey :=
  match registeredBackends.find? (keyPresent config) with
  | some key => Except.ok key
  | none => Except.error "Config must contain one of: [RULE, SYNTHESIZER]"

/-- The dispatch logic of the legacy `simulate_characteristics(config_path)`
entry point: requires exactly one of the `RULE`/`SYNTHESIZER` blocks and
raises on zero or two. -/
def simulate_characteristics_dispatch (config : Config) : Except String BKey :=
  if config.hasRule ∧ ¬config.hasSynth then
    Except.ok BKey.RULE
  else if config.hasSynth ∧ ¬config.hasRule then
    Except.ok BKey.SYNTHESIZER
  else if config.hasRule ∧ config.hasSynth then
    Except.error "Config must contain exactly one of RULE or SYNTHESIZER block, not both"
  else
    Except.error "Config must contain either RULE or SYNTHESIZER block"

/-! ## Job listing and cleanup (`manage/jobs.py`) -/

/-- A directory entry of the storage path, as seen by `Path.iterdir`. -/
structure DirEntry where
  name : String
  isDir : Bool
deriving DecidableEq, Repr

/-- Python's `str.startswith`, at the character-list level (Python strings
compare and match by code points, exactly the `Char` order of the
character lists). -/
def pyStartsWith (s pat : String) : Bool :=
  pat.data.isPrefixOf s.data

/-- Descending string order, the key order of `sorted(jobs, reverse=True)`:
`a` is at least `b` in the code-point-lexicographic order, stated on the
character lists so that it is kernel-computable (`strGe_iff` identifies it
with `b ≤ a` for Lean's string order). -/
def strGe (a b : String) : Prop := ¬ (a.data < b.data)

instance : DecidableRel strGe :=
  fun a b => inferInstanceAs (Decidable ¬(a.data < b.data))

instance : IsTotal String strGe :=
  ⟨fun a b => by
    have ha : strGe a b ↔ b ≤ a := by
      show ¬(a.toList < b.toList) ↔ b ≤ a
      rw [← String.lt_iff_toList_lt]
      exact not_lt
    have hb : strGe b a ↔ a ≤ b := by
      show ¬(b.toList < a.toList) ↔ a ≤ b
      rw [← String.lt_iff_toList_lt]
      exact not_lt
    rw [ha, hb]
    exact le_total b a⟩

instance : IsTrans String strGe :=
  ⟨fun a b c hab hbc => by
    have ha : strGe a b ↔ b ≤ a := by
      show ¬(a.toList < b.toList) ↔ b ≤ a
      rw [← String.lt_iff_toList_lt]
      exact not_lt
    have hb : strGe b c ↔ c ≤ b := by
      show ¬(b.toList < c.toList) ↔ c ≤ b
      rw [← String.lt_iff_toList_lt]
      exact not_lt
    have hc : strGe a c ↔ c ≤ a := by
      show ¬(a.toList < c.toList) ↔ c ≤ a
      rw [← String.lt_iff_toList_lt]
      exact not_lt
    rw [ha] at hab
    rw [hb] at hbc
    rw [hc]
    exact le_trans hbc hab⟩

/-- `list_jobs(storage_path)`: the names of directory entries that are
directories and start with `"job-"`, sorted descending (Python
`sorted(jobs, reverse=True)`; for duplicate-free string keys any stable or
unstable descending sort produces this list). -/
def list_jobs (entries : List DirEntry) : List String :=
  List.insertionSort strGe
    ((entries.filter fun e => e.isDir && pyStartsWith e.name "job-").map
      (·.name))

/-- `cleanup_old_jobs(storage_path, keep_count)`: removes every listed job
beyond the first `keep_count` (the listing is newest-first) and returns
the removed ids together with the storage directory after removal; when at
most `keep_count` jobs exist it removes nothing and returns `[]`. -/
def cleanup_old_jobs (entries : List DirEntry) (keep_count : Nat) :
    List String × List DirEntry :=
  let jobs := list_jobs entries
  if jobs.length ≤ keep_count then
    ([], entries)
  else
    let jobs_to_remove := jobs.drop keep_count
    (jobs_to_remove, entries.filter fun e => e.name ∉ jobs_to_remove)

/-! ## Specification-side predicates and ghost functions -/

/-- The revenue-consistency invariant for a sale row:
`revenue == round(quantity * unit_price, 2)`. -/
def revenueConsistent (sale : Sale) : Prop :=
  sale.revenue = pyRound2 ((sale.quantity : ℚ) * sale.unit_price)

instance (sale : Sale) : Decidable (revenueConsistent sale) :=
  inferInstanceAs (Decidable (_ = _))

/-- Ghost occurrence counter for one day of `generate_sales_data`: counts
the products whose Bernoulli draw succeeds, consuming random values exactly
as the generator does (occurrence draw always, quantity draw on success). -/
def occLoop (sale_probability : ℚ) : List Product → RState → Nat × RState
  | [], s => (0, s)
  | _ :: rest, s =>
    let u := (pyRandom s).1
    let s1 := (pyRandom s).2
    if u < sale_probability then
      let s2 := (pyChoicesQty s1).2
      let rest' := occLoop sale_probability rest s2
      (rest'.1 + 1, rest'.2)
    else
      occLoop sale_probability rest s1

/-- Ghost occurrence counter over the whole day range. -/
def occDays (products : List Product) (sale_probability : ℚ) :
    Nat → RState → Nat × RState
  | 0, s => (0, s)
  | n + 1, s =>
    let day := occLoop sale_probability products s
    let tail := occDays products sale_probability n day.2
    (day.1 + tail.1, tail.2)

/-! ## Concrete fixtures used by witnesses and counterexamples -/

/-- A concrete seeding function for witness evaluation. -/
def gFix : Nat → Nat → Nat := fun s i => s + i

/-- A concrete pre-existing random state for witness evaluation. -/
def rsFix : RState := ⟨fun i => 7 * i + 3, 0⟩

/-- A second concrete pre-existing random state. -/
def rsFix2 : RState := ⟨fun i => 11 * i + 5, 4⟩

/-- A concrete product fixture. -/
def prodFix : Product :=
  { product_id := "PROD0001", name := "Laptop",
    category := "Electronics", price := 100 }

/-- A second concrete product fixture. -/
def prodFix2 : Product :=
  { product_id := "PROD0002", name := "Novel",
    category := "Books", price := 20 }

/-- A concrete revenue-consistent sale fixture (quantity 3 at price 10.50,
dated day 3). -/
def saleFix : Sale :=
  { transaction_id := "TXN000001", product_id := "PROD0001",
    product_name := "Laptop", category := "Electronics",
    quantity := 3, unit_price := 21 / 2, revenue := 63 / 2, date := 3 }

/-- The `saleFix` product marked as treated. -/
def prodFixE : ProductE :=
  { product_id := "PROD0001", name := "Laptop",
    category := "Electronics", price := 100, enriched := true }

/-- A concrete storage-directory fixture: two job directories, one
non-job directory and one plain file. -/
def entriesFix : List DirEntry :=
  [⟨"job-20240101-120000-aaaaaaaa", true⟩,
   ⟨"job-20240301-090000-bbbbbbbb", true⟩,
   ⟨"archive", true⟩,
   ⟨"job-20240201-100000-cccccccc", false⟩]

/-- The number of (day, product) Bernoulli successes seen by
`generate_sales_data` on the same arguments: the ghost counter run from the
same (possibly reseeded) initial state. -/
def occurrenceCount (g : Nat → Nat → Nat) (products : List Product)
    (date_start date_end : Nat) (seed : Option Nat) (sale_probability : ℚ)
    (s0 : RState) : Nat :=
  let s := match seed with
    | some sd => pySeed g sd
    | none => s0
  (occDays products sale_probability (date_end + 1 - date_start) s).1

/-- The `enriched` flags of an `assign_enrichment` result, in product-list
order (`none` when the call raised). -/
def assignFlags (r : Except String (List ProductE × RState)) :
    Option (List Bool) :=
  match r with
  | Except.ok x => some (x.1.map (·.enriched))
  | Except.error _ => none

/-! ## Theorems -/

/-- C1: for every fixed tuple `(seed, n, date_start, date_end,
sale_probability)`, two independent runs of the generation pipeline —
`generate_product_data(n, seed)` followed by `generate_sales_data(products,
date_start, date_end, seed, sale_probability)` — produce identical product
tables and identical sales tables, whatever the pre-existing global random
state of each run: both stages reseed the global source from the seed. -/
theorem pipeline_determinism (g : Nat → Nat → Nat)
    (seed n date_start date_end : Nat) (sale_probability : ℚ)
    (s0 s0' : RState) :
    generationPipeline g seed n date_start date_end sale_probability s0 =
      generationPipeline g seed n date_start date_end sale_probability s0' :=
  rfl

/-- C2 counterexample: with both `RULE` and `SYNTHESIZER` present,
`BackendRegistry.detect_backend` does not fail with an ambiguous-backend
error — it silently constructs the first-registered backend (`RULE`). -/
theorem detect_backend_ambiguous_constructs_rule :
    detect_backend ⟨true, true⟩ = Except.ok BKey.RULE :=
  rfl

/-- C2 amended: `detect_backend` fails (with its no-backend error) exactly
when zero recognized keys are present; when more than one key is present it
does not fail but constructs the backend of the first registered key
(`RULE`); only the legacy `simulate_characteristics` dispatcher rejects an
ambiguous configuration. -/
theorem detect_backend_dispatch (config : Config) :
    (config.hasRule = false → config.hasSynth = false →
      detect_backend config =
        Except.error "Config must contain one of: [RULE, SYNTHESIZER]") ∧
    (config.hasRule = true → detect_backend config = Except.ok BKey.RULE) ∧
    (config.hasRule = false → config.hasSynth = true →
      detect_backend config = Except.ok BKey.SYNTHESIZER) ∧
    (config.hasRule = true → config.hasSynth = true →
      simulate_characteristics_dispatch config =
        Except.error
          "Config must contain exactly one of RULE or SYNTHESIZER block, not both") := by
  rcases config with ⟨hr, hs⟩
  have hft : ¬(false = true) := by decide
  have htf : ¬(true = false) := by decide
  cases hr <;> cases hs
  · exact ⟨fun _ _ => rfl, fun h => absurd h hft, fun _ h => absurd h hft,
      fun h _ => absurd h hft⟩
  · exact ⟨fun _ h => absurd h htf, fun h => absurd h hft, fun _ _ => rfl,
      fun h _ => absurd h hft⟩
  · exact ⟨fun h _ => absurd h htf, fun _ => rfl, fun h _ => absurd h htf,
      fun _ h => absurd h hft⟩
  · exact ⟨fun h _ => absurd h htf, fun _ => rfl, fun h _ => absurd h htf,
      fun _ _ => rfl⟩

/-- C2 witness: concrete instances of each branch of
`detect_backend_dispatch`. -/
theorem detect_backend_dispatch_witness :
    detect_backend ⟨false, true⟩ = Except.ok BKey.SYNTHESIZER ∧
    detect_backend ⟨false, false⟩ =
      Except.error "Config must contain one of: [RULE, SYNTHESIZER]" ∧
    simulate_characteristics_dispatch ⟨true, true⟩ =
      Except.error
        "Config must contain exactly one of RULE or SYNTHESIZER block, not both" :=
  ⟨(detect_backend_dispatch ⟨false, true⟩).2.2.1 rfl rfl,
   (detect_backend_dispatch ⟨false, false⟩).1 rfl rfl,
   (detect_backend_dispatch ⟨true, true⟩).2.2.2 rfl rfl⟩

/-- C4: `quantity_boost` leaves a sale strictly before the cutover
unchanged; on or after the cutover it floors `quantity * (1 + effect_size)`
and recomputes `revenue = round(new_quantity * unit_price, 2)`
(for the boost's non-negative quantity and effect size, Python's `int`
truncation coincides with the floor of the claim). -/
theorem quantity_boost_cutover (sale : Sale) (enrichment_start : Nat)
    (effect_size : ℚ) (hq : 0 ≤ sale.quantity) (he : 0 ≤ effect_size) :
    (sale.date < enrichment_start →
      quantity_boost sale enrichment_start effect_size = sale) ∧
    (enrichment_start ≤ sale.date →
      (quantity_boost sale enrichment_start effect_size).quantity =
        ⌊(sale.quantity : ℚ) * (1 + effect_size)⌋ ∧
      (quantity_boost sale enrichment_start effect_size).revenue =
        pyRound2
          (((quantity_boost sale enrichment_start effect_size).quantity : ℚ) *
            sale.unit_price)) := by
  constructor
  · intro h
    simp [quantity_boost, Nat.not_le.mpr h]
  · intro h
    have harg : (0 : ℚ) ≤ (sale.quantity : ℚ) * (1 + effect_size) := by
      have h1 : (0 : ℚ) ≤ (sale.quantity : ℚ) := by exact_mod_cast hq
      have h2 : (0 : ℚ) ≤ 1 + effect_size := by linarith
      exact mul_nonneg h1 h2
    simp [quantity_boost, h, pyInt, harg]

/-- C4 witness: a treated sale with quantity 3 on day 3, cutover day 4
(one day later), is unchanged; with cutover day 3 its quantity becomes
`floor(3 * 1.5) = 4` with recomputed revenue. -/
theorem quantity_boost_cutover_witness :
    quantity_boost saleFix 4 (1 / 2) = saleFix ∧
    (quantity_boost saleFix 3 (1 / 2)).quantity = 4 ∧
    (quantity_boost saleFix 3 (1 / 2)).revenue = 42 := by
  have hpre := (quantity_boost_cutover saleFix 4 (1 / 2)
    (by decide) (by norm_num)).1 (by decide)
  have hpost := (quantity_boost_cutover saleFix 3 (1 / 2)
    (by decide) (by norm_num)).2 (by decide)
  refine ⟨hpre, ?_, ?_⟩
  · rw [hpost.1]
    norm_num [saleFix]
  · rw [hpost.2, hpost.1]
    norm_num [saleFix, pyRound2, roundHalfEven]

/-- C7: under `combined_boost`, a post-cutover sale's quantity is scaled by
`1 + adjusted_effect` where `adjusted_effect = effect_size * min(1,
days_since_cutover / 7)`; the adjusted effect is non-decreasing in the day
offset (for the boost's non-negative effect size) and equals `effect_size`
exactly from day 7 on. -/
theorem combined_boost_ramp (sale : Sale) (enrichment_start : Nat)
    (effect_size : ℚ) (he : 0 ≤ effect_size) :
    (enrichment_start ≤ sale.date →
      (combined_boost sale enrichment_start effect_size).quantity =
        pyInt ((sale.quantity : ℚ) *
          (1 + adjustedEffect effect_size (sale.date - enrichment_start)))) ∧
    (∀ k : Nat, adjustedEffect effect_size k =
      effect_size * min 1 ((k : ℚ) / 7)) ∧
    (∀ k1 k2 : Nat, k1 ≤ k2 →
      adjustedEffect effect_size k1 ≤ adjustedEffect effect_size k2) ∧
    (∀ k : Nat, 7 ≤ k → adjustedEffect effect_size k = effect_size) := by
  refine ⟨fun h => ?_, fun k => rfl, fun k1 k2 hk => ?_, fun k hk => ?_⟩
  · simp [combined_boost, h]
  · have hcast : (k1 : ℚ) ≤ (k2 : ℚ) := by exact_mod_cast hk
    have hdiv : (k1 : ℚ) / 7 ≤ (k2 : ℚ) / 7 := by linarith
    exact mul_le_mul_of_nonneg_left (min_le_min le_rfl hdiv) he
  · have hcast : (7 : ℚ) ≤ (k : ℚ) := by exact_mod_cast hk
    have hone : (1 : ℚ) ≤ (k : ℚ) / 7 := by linarith
    simp [adjustedEffect, rampFactor, min_eq_left hone]

/-- C7 witness: with effect size 0.5, the adjusted effect is 0 at the
cutover day, increases to 0.25 on day 3.5-of-7 … and is exactly 0.5 from
day 7 on; a treated sale on cutover day keeps quantity
`int(3 * (1 + 0)) = 3`. -/
theorem combined_boost_ramp_witness :
    adjustedEffect (1 / 2) 0 ≤ adjustedEffect (1 / 2) 3 ∧
    adjustedEffect (1 / 2) 9 = 1 / 2 ∧
    (combined_boost saleFix 3 (1 / 2)).quantity =
      pyInt ((3 : ℚ) * (1 + adjustedEffect (1 / 2) 0)) := by
  have h := combined_boost_ramp saleFix 3 (1 / 2) (by norm_num)
  exact ⟨h.2.2.1 0 3 (by decide), h.2.2.2 9 (by decide),
    h.1 (by decide)⟩

/-- C10: `apply_enrichment_to_sales` returns exactly one output row per
input row, in the same order: row `i` of the output is the effect
function's result on row `i` of the input when its product is treated and
is row `i` of the input itself otherwise.  The input list is a value the
function never alters (each Python output row is built from a deep copy;
in this pure embedding aliasing is impossible by construction). -/
theorem apply_enrichment_frame (sales : List Sale)
    (enriched_products : List ProductE) (enrichment_start : Nat)
    (effect_function : Sale → Nat → Sale) :
    (apply_enrichment_to_sales sales enriched_products enrichment_start
        effect_function).length = sales.length ∧
    ∀ i (hi : i < sales.length)
      (ho : i < (apply_enrichment_to_sales sales enriched_products
        enrichment_start effect_function).length),
      (apply_enrichment_to_sales sales enriched_products enrichment_start
          effect_function).get ⟨i, ho⟩ =
        if (sales.get ⟨i, hi⟩).product_id ∈
            ((enriched_products.filter (·.enriched)).map (·.product_id)) then
          effect_function (sales.get ⟨i, hi⟩) enrichment_start
        else sales.get ⟨i, hi⟩ := by
  refine ⟨by simp [apply_enrichment_to_sales], fun i hi ho => ?_⟩
  simp [apply_enrichment_to_sales, List.get_eq_getElem]

/-- C10 witness: on a one-row sales list with no treated product, the
output row 0 equals the input row. -/
theorem apply_enrichment_frame_witness :
    (apply_enrichment_to_sales [saleFix] [] 0 (fun s _ => s)).length = 1 ∧
    (apply_enrichment_to_sales [saleFix] [] 0 (fun s _ => s)).get
      ⟨0, by decide⟩ = saleFix := by
  have h := apply_enrichment_frame [saleFix] [] 0 (fun s _ => s)
  refine ⟨h.1, ?_⟩
  have h2 := h.2 0 (by decide) (by decide)
  simpa using h2

/-- Helper: the selection loop of the sampler returns exactly `k` elements,
all distinct and all drawn from the remaining pool, whenever `k` does not
exceed the pool size and the pool is duplicate-free. -/
theorem sampleAux_spec : ∀ (k : Nat) (remaining : List Nat) (s : RState),
    k ≤ remaining.length → remaining.Nodup →
    (sampleAux k remaining s).1.length = k ∧
    (sampleAux k remaining s).1.Nodup ∧
    ∀ x ∈ (sampleAux k remaining s).1, x ∈ remaining := by
  intro k
  induction k with
  | zero => intro remaining s _ _; simp [sampleAux]
  | succ k ih =>
    intro remaining s hk hnd
    have hpos : 0 < remaining.length := lt_of_lt_of_le (Nat.succ_pos k) hk
    have hj : (rawDraw s).1 % remaining.length < remaining.length :=
      Nat.mod_lt _ hpos
    set x := remaining.getD ((rawDraw s).1 % remaining.length) 0 with hx
    have hxmem : x ∈ remaining := by
      rw [hx, List.getD_eq_getElem remaining 0 hj]
      exact List.getElem_mem hj
    have hlen : (remaining.erase x).length = remaining.length - 1 :=
      List.length_erase_of_mem hxmem
    have hk' : k ≤ (remaining.erase x).length := by omega
    have hnd' : (remaining.erase x).Nodup := List.Nodup.erase x hnd
    obtain ⟨ihlen, ihnd, ihmem⟩ := ih (remaining.erase x) (rawDraw s).2 hk' hnd'
    refine ⟨?_, ?_, ?_⟩
    · show (x :: (sampleAux k (remaining.erase x) (rawDraw s).2).1).length = k + 1
      simp [ihlen]
    · show (x :: (sampleAux k (remaining.erase x) (rawDraw s).2).1).Nodup
      rw [List.nodup_cons]
      exact ⟨fun hmem =>
        ((List.Nodup.mem_erase_iff hnd).mp (ihmem x hmem)).1 rfl, ihnd⟩
    · intro y hy
      have hy' : y ∈ x :: (sampleAux k (remaining.erase x) (rawDraw s).2).1 := hy
      rcases List.mem_cons.mp hy' with rfl | hy2
      · exact hxmem
      · exact List.mem_of_mem_erase (ihmem y hy2)

/-- Helper: `random.sample(range(n), k)` for `k ≤ n` returns `k` distinct
indices below `n`. -/
theorem pySample_spec (s : RState) (n k : Nat) (hk : k ≤ n) :
    (pySample s n k).1.length = k ∧ (pySample s n k).1.Nodup ∧
    ∀ x ∈ (pySample s n k).1, x < n := by
  have h := sampleAux_spec k (List.range n) s (by simpa using hk)
    (List.nodup_range n)
  exact ⟨h.1, h.2.1, fun x hx => List.mem_range.mp (h.2.2 x hx)⟩

/-- Helper: a duplicate-free list of indices below `n` hits `countP`
over `range n` exactly its own length many times. -/
theorem countP_range_mem (n : Nat) (idxs : List Nat) (hnd : idxs.Nodup)
    (hlt : ∀ x ∈ idxs, x < n) :
    (List.range n).countP (fun i => decide (i ∈ idxs)) = idxs.length := by
  rw [List.countP_eq_length_filter]
  have hfsub :
      List.Perm ((List.range n).filter (fun i => decide (i ∈ idxs))) idxs := by
    rw [List.perm_ext_iff_of_nodup (List.Nodup.filter _ (List.nodup_range n)) hnd]
    intro a
    simp only [List.mem_filter, List.mem_range, decide_eq_true_eq]
    exact ⟨fun h => h.2, fun h => ⟨hlt a h, h⟩⟩
  exact hfsub.length_eq

/-- C3: for any product list, any fraction in `[0, 1]` and any seed,
`assign_enrichment` succeeds and marks exactly
`floor(len(products) * fraction)` products as enriched; the sampled indices
are distinct and lie in `[0, len(products))`; the result is independent of
the pre-existing global random state (reseeding makes two calls with the
same arguments identical); and over 100 products with fraction `1/2`
exactly 50 products are treated, for any seed. -/
theorem assign_enrichment_spec (g : Nat → Nat → Nat)
    (products : List Product) (fraction : ℚ) (sd : Nat) (s0 s0' : RState)
    (h0 : 0 ≤ fraction) (h1 : fraction ≤ 1) :
    (∃ out s1,
      assign_enrichment g products fraction (some sd) s0 =
        Except.ok (out, s1) ∧
      out.countP (·.enriched) =
        (⌊(products.length : ℚ) * fraction⌋).toNat ∧
      out.length = products.length ∧
      (products.length = 100 → fraction = 1 / 2 →
        out.countP (·.enriched) = 50)) ∧
    (pySample (pySeed g sd) products.length
        (⌊(products.length : ℚ) * fraction⌋).toNat).1.Nodup ∧
    (∀ x ∈ (pySample (pySeed g sd) products.length
        (⌊(products.length : ℚ) * fraction⌋).toNat).1,
      x < products.length) ∧
    assign_enrichment g products fraction (some sd) s0 =
      assign_enrichment g products fraction (some sd) s0' := by
  set n := products.length with hn
  have harg0 : (0 : ℚ) ≤ (n : ℚ) * fraction :=
    mul_nonneg (by positivity) h0
  have hfl : pyInt ((n : ℚ) * fraction) = ⌊(n : ℚ) * fraction⌋ := by
    simp [pyInt, harg0]
  have hfl0 : (0 : Int) ≤ ⌊(n : ℚ) * fraction⌋ :=
    Int.floor_nonneg.mpr harg0
  have hfln : ⌊(n : ℚ) * fraction⌋ ≤ (n : Int) := by
    have : (n : ℚ) * fraction ≤ (n : ℚ) := by
      calc (n : ℚ) * fraction ≤ (n : ℚ) * 1 :=
        mul_le_mul_of_nonneg_left h1 (by positivity)
      _ = (n : ℚ) := mul_one _
    calc ⌊(n : ℚ) * fraction⌋ ≤ ⌊(n : ℚ)⌋ := Int.floor_le_floor this
    _ = (n : Int) := Int.floor_natCast n
  have hkn : (⌊(n : ℚ) * fraction⌋).toNat ≤ n := by omega
  obtain ⟨hslen, hsnd, hslt⟩ := pySample_spec (pySeed g sd) n
    (⌊(n : ℚ) * fraction⌋).toNat hkn
  have hassign : assign_enrichment g products fraction (some sd) s0 =
      Except.ok ((products.enum.map fun ip =>
        tagEnriched ip.2 (decide (ip.1 ∈
          (pySample (pySeed g sd) n (⌊(n : ℚ) * fraction⌋).toNat).1))),
        (pySample (pySeed g sd) n (⌊(n : ℚ) * fraction⌋).toNat).2) := by
    rw [assign_enrichment]
    rw [← hn, hfl]
    rw [if_pos ⟨hfl0, hfln⟩]
  have hcount : (products.enum.map fun ip =>
      tagEnriched ip.2 (decide (ip.1 ∈
        (pySample (pySeed g sd) n (⌊(n : ℚ) * fraction⌋).toNat).1))).countP
        (·.enriched) = (⌊(n : ℚ) * fraction⌋).toNat := by
    rw [List.countP_map]
    have hcomp : ((fun p : ProductE => p.enriched) ∘ fun ip : Nat × Product =>
        tagEnriched ip.2 (decide (ip.1 ∈
          (pySample (pySeed g sd) n (⌊(n : ℚ) * fraction⌋).toNat).1))) =
        ((fun i => decide (i ∈
          (pySample (pySeed g sd) n (⌊(n : ℚ) * fraction⌋).toNat).1)) ∘
          Prod.fst) := by
      funext ip
      simp [tagEnriched]
    rw [hcomp, ← List.countP_map, List.enum_map_fst, ← hn]
    rw [countP_range_mem n _ hsnd hslt, hslen]
  have hdet : assign_enrichment g products fraction (some sd) s0 =
      assign_enrichment g products fraction (some sd) s0' := rfl
  refine ⟨⟨_, _, hassign, hcount, by simp, fun h100 hhalf => ?_⟩,
    hsnd, hslt, hdet⟩
  rw [hcount, h100, hhalf]
  norm_num
  rfl

/-- C3 witness: over the two-product list with fraction `1/2` and seed 5,
`assign_enrichment` succeeds and marks exactly `floor(2 * 1/2) = 1`
product. -/
theorem assign_enrichment_spec_witness :
    ∃ out s1,
      assign_enrichment gFix [prodFix, prodFix2] (1 / 2) (some 5) rsFix =
        Except.ok (out, s1) ∧
      out.countP (·.enriched) = 1 := by
  obtain ⟨⟨out, s1, heq, hcnt, _, _⟩, _, _, _⟩ :=
    assign_enrichment_spec gFix [prodFix, prodFix2] (1 / 2) 5 rsFix rsFix2
      (by norm_num) (by norm_num)
  exact ⟨out, s1, heq, by rw [hcnt]; norm_num⟩

/-- Helper: the flags of a successful `assign_enrichment` call are the
index-membership bits of the drawn sample. -/
theorem assignFlags_ok (g : Nat → Nat → Nat) (products : List Product)
    (fraction : ℚ) (sd : Nat) (s0 : RState)
    (hguard : 0 ≤ pyInt ((products.length : ℚ) * fraction) ∧
      pyInt ((products.length : ℚ) * fraction) ≤ (products.length : Int)) :
    assignFlags (assign_enrichment g products fraction (some sd) s0) =
      some (products.enum.map fun ip => decide (ip.1 ∈
        (pySample (pySeed g sd) products.length
          (pyInt ((products.length : ℚ) * fraction)).toNat).1)) := by
  rw [assign_enrichment, if_pos hguard]
  simp only [assignFlags, List.map_map]
  exact congrArg some (List.map_congr_left fun ip _ => rfl)

/-- C6 counterexample: `assign_enrichment` performs no fraction
validation.  With fraction 2 over one product the call does not treat
every product — it raises the sampler's range error; and with fraction
`-1/20` over ten products (outside `[0, 1]`) the call does not fail at all
— it succeeds with an empty treated set. -/
theorem assign_enrichment_no_fraction_validation :
    assign_enrichment gFix [prodFix] 2 (some 0) rsFix =
      Except.error "Sample larger than population or is negative" ∧
    assignFlags (assign_enrichment gFix
        (List.replicate 10 prodFix) (-1 / 20) (some 0) rsFix) =
      some (List.replicate 10 false) := by
  constructor
  · have hk : pyInt ((([prodFix] : List Product).length : ℚ) * 2) = 2 := by
      simp only [pyInt, List.length_cons, List.length_nil]
      norm_num
    rw [assign_enrichment, hk]
    rw [if_neg (by norm_num)]
  · have hk : pyInt (((List.replicate 10 prodFix).length : ℚ) * (-1 / 20)) = 0 := by
      simp only [pyInt, List.length_replicate]
      norm_num
    rw [assign_enrichment, hk]
    rw [if_pos ⟨le_refl 0, by norm_num⟩]
    rfl

/-- C6 amended: write `n = len(products)` and
`k = int(n * fraction)` (truncation toward zero, the quantity the code
samples).  `fraction ≤ 0` yields an empty treated set whenever `k = 0`
(and otherwise the call fails); `fraction ≥ 1` treats every product
whenever `k = n` — in particular at `fraction = 1` — (and otherwise the
call fails); there is no `InvalidFraction` validation: a fraction outside
`[0, 1]` fails only when `k` falls outside `[0, n]`, and then with the
sampler's range error. -/
theorem assign_enrichment_edge_cases (g : Nat → Nat → Nat)
    (products : List Product) (fraction : ℚ) (sd : Nat) (s0 : RState) :
    (fraction ≤ 0 → pyInt ((products.length : ℚ) * fraction) = 0 →
      assignFlags (assign_enrichment g products fraction (some sd) s0) =
        some (List.replicate products.length false)) ∧
    (1 ≤ fraction →
      pyInt ((products.length : ℚ) * fraction) = (products.length : Int) →
      assignFlags (assign_enrichment g products fraction (some sd) s0) =
        some (List.replicate products.length true)) ∧
    ((pyInt ((products.length : ℚ) * fraction) < 0 ∨
      (products.length : Int) < pyInt ((products.length : ℚ) * fraction)) →
      assign_enrichment g products fraction (some sd) s0 =
        Except.error "Sample larger than population or is negative") := by
  refine ⟨fun _ hk0 => ?_, fun _ hkn => ?_, fun hbad => ?_⟩
  · rw [assignFlags_ok g products fraction sd s0
      (by rw [hk0]; exact ⟨le_refl 0, Int.natCast_nonneg _⟩)]
    rw [hk0]
    congr 1
    have hnone : ∀ ip ∈ products.enum,
        decide (ip.1 ∈ (pySample (pySeed g sd) products.length
          (Int.toNat 0)).1) = false := by
      intro ip _
      simp [pySample, sampleAux]
    rw [List.map_congr_left hnone, List.map_const', List.enum_length]
  · rw [assignFlags_ok g products fraction sd s0
      (by rw [hkn]; exact ⟨Int.natCast_nonneg _, le_refl _⟩)]
    rw [hkn, Int.toNat_natCast]
    obtain ⟨hslen, hsnd, hslt⟩ :=
      pySample_spec (pySeed g sd) products.length products.length le_rfl
    have hperm : List.Perm
        (pySample (pySeed g sd) products.length products.length).1
        (List.range products.length) := by
      refine List.Subperm.perm_of_length_le
        (List.Nodup.subperm hsnd fun x hx => List.mem_range.mpr (hslt x hx)) ?_
      rw [hslen, List.length_range]
    congr 1
    have hall : ∀ ip ∈ products.enum,
        decide (ip.1 ∈ (pySample (pySeed g sd) products.length
          products.length).1) = true := by
      intro ip hip
      rw [List.enum_eq_zip_range] at hip
      obtain ⟨i, p⟩ := ip
      have hi : i ∈ List.range products.length := (List.of_mem_zip hip).1
      exact decide_eq_true (hperm.mem_iff.mpr hi)
    rw [List.map_congr_left hall, List.map_const', List.enum_length]
  · rw [assign_enrichment]
    rw [if_neg ?_]
    intro hok
    obtain ⟨h1, h2⟩ := hok
    rcases hbad with h3 | h3 <;> omega

/-- C6 witness: with one product, fraction 1 treats the product, fraction
`5/4` (so `k = int(5/4) = 1 = n`) also treats it, fraction 0 treats
nothing, and fraction 2 fails with the sampler's range error. -/
theorem assign_enrichment_edge_cases_witness :
    assignFlags (assign_enrichment gFix [prodFix] 1 (some 0) rsFix) =
      some (List.replicate 1 true) ∧
    assignFlags (assign_enrichment gFix [prodFix] 0 (some 0) rsFix) =
      some (List.replicate 1 false) ∧
    assign_enrichment gFix [prodFix] 2 (some 1) rsFix =
      Except.error "Sample larger than population or is negative" := by
  refine ⟨?_, ?_, ?_⟩
  · exact (assign_enrichment_edge_cases gFix [prodFix] 1 0 rsFix).2.1
      le_rfl (by simp only [pyInt, List.length_cons, List.length_nil]; norm_num)
  · exact (assign_enrichment_edge_cases gFix [prodFix] 0 0 rsFix).1
      le_rfl (by simp only [pyInt, List.length_cons, List.length_nil]; norm_num)
  · exact (assign_enrichment_edge_cases gFix [prodFix] 2 1 rsFix).2.2
      (Or.inr (by simp only [pyInt, List.length_cons, List.length_nil]; norm_num))

/-- Helper: `random.random()` is non-negative. -/
theorem pyRandom_nonneg (s : RState) : 0 ≤ (pyRandom s).1 := by
  unfold pyRandom
  positivity

/-- Helper: `random.random()` is strictly below 1. -/
theorem pyRandom_lt_one (s : RState) : (pyRandom s).1 < 1 := by
  unfold pyRandom
  rw [div_lt_one (by positivity)]
  have h : (rawDraw s).1 % 2 ^ 53 < 2 ^ 53 := Nat.mod_lt _ (by norm_num)
  exact_mod_cast h

/-- Helper: the weighted quantity draw lands in the population
`[1, 2, 3, 4, 5]`. -/
theorem pyChoicesQty_mem (s : RState) :
    (pyChoicesQty s).1 ∈ ([1, 2, 3, 4, 5] : List Nat) := by
  unfold pyChoicesQty weightedIdx
  split
  · simp
  split
  · simp
  split
  · simp
  split
  · simp
  · simp

/-- Helper: the quantity draw, cast to `Int`, lies in `[1, 2, 3, 4, 5]`. -/
theorem pyChoicesQty_mem_int (s : RState) :
    ((pyChoicesQty s).1 : Int) ∈ ([1, 2, 3, 4, 5] : List Int) := by
  have h := pyChoicesQty_mem s
  simp only [List.mem_cons, List.not_mem_nil, or_false] at h ⊢
  rcases h with h | h | h | h | h <;> rw [h] <;> norm_num

/-- Helper: a freshly built sale row satisfies the revenue invariant. -/
theorem mkSaleRow_consistent (product : Product) (date txnNum quantity : Nat) :
    revenueConsistent (mkSaleRow product date txnNum quantity) := by
  show pyRound2 (product.price * (quantity : ℚ)) =
    pyRound2 ((((quantity : Nat) : Int) : ℚ) * product.price)
  refine congrArg pyRound2 ?_
  push_cast
  ring

/-- Helper: the inner product loop of the sales generator emits rows whose
counter advances by the number of emitted rows, whose transaction ids are
the consecutive ids starting after the incoming counter, and whose rows
all carry an in-population quantity and a consistent revenue; its row
count and final state agree with the ghost occurrence counter. -/
theorem salesLoop_spec (p : ℚ) : ∀ (prods : List Product) (d c : Nat)
    (s : RState),
    (salesLoop p prods d c s).2.1 = c + (salesLoop p prods d c s).1.length ∧
    (salesLoop p prods d c s).1.map (·.transaction_id) =
      (List.range' (c + 1) (salesLoop p prods d c s).1.length).map txnId ∧
    (∀ sale ∈ (salesLoop p prods d c s).1,
      sale.quantity ∈ ([1, 2, 3, 4, 5] : List Int) ∧ revenueConsistent sale) ∧
    (salesLoop p prods d c s).1.length = (occLoop p prods s).1 ∧
    (salesLoop p prods d c s).2.2 = (occLoop p prods s).2 := by
  intro prods
  induction prods with
  | nil =>
    intro d c s
    exact ⟨by simp [salesLoop], by simp [salesLoop, List.range'],
      by simp [salesLoop], by simp [salesLoop, occLoop],
      by simp [salesLoop, occLoop]⟩
  | cons prod rest ih =>
    intro d c s
    have heq : salesLoop p (prod :: rest) d c s =
        if (pyRandom s).1 < p then
          (mkSaleRow prod d (c + 1) (pyChoicesQty (pyRandom s).2).1 ::
            (salesLoop p rest d (c + 1) (pyChoicesQty (pyRandom s).2).2).1,
           (salesLoop p rest d (c + 1) (pyChoicesQty (pyRandom s).2).2).2.1,
           (salesLoop p rest d (c + 1) (pyChoicesQty (pyRandom s).2).2).2.2)
        else salesLoop p rest d c (pyRandom s).2 := rfl
    have hocc : occLoop p (prod :: rest) s =
        if (pyRandom s).1 < p then
          ((occLoop p rest (pyChoicesQty (pyRandom s).2).2).1 + 1,
           (occLoop p rest (pyChoicesQty (pyRandom s).2).2).2)
        else occLoop p rest (pyRandom s).2 := rfl
    by_cases h : (pyRandom s).1 < p
    · rw [heq, hocc, if_pos h, if_pos h]
      obtain ⟨ih1, ih2, ih3, ih4, ih5⟩ :=
        ih d (c + 1) (pyChoicesQty (pyRandom s).2).2
      refine ⟨?_, ?_, ?_, ?_, ?_⟩
      · simp only [List.length_cons]
        omega
      · simp only [List.length_cons, List.map_cons, List.range'_succ]
        exact congrArg₂ List.cons rfl ih2
      · intro sale hs
        rcases List.mem_cons.mp hs with rfl | hs
        · exact ⟨pyChoicesQty_mem_int _, mkSaleRow_consistent _ _ _ _⟩
        · exact ih3 sale hs
      · simp only [List.length_cons]
        omega
      · exact ih5
    · rw [heq, hocc, if_neg h, if_neg h]
      exact ih d c (pyRandom s).2

/-- Helper: bounds for the ghost per-day occurrence counter: never more
successes than products; none when the probability is ≤ 0 (the draw is
non-negative); all when the probability is ≥ 1 (the draw is below 1). -/
theorem occLoop_bounds (p : ℚ) : ∀ (prods : List Product) (s : RState),
    (occLoop p prods s).1 ≤ prods.length ∧
    (p ≤ 0 → (occLoop p prods s).1 = 0) ∧
    (1 ≤ p → (occLoop p prods s).1 = prods.length) := by
  intro prods
  induction prods with
  | nil => intro s; simp [occLoop]
  | cons prod rest ih =>
    intro s
    have heq : occLoop p (prod :: rest) s =
        if (pyRandom s).1 < p then
          ((occLoop p rest (pyChoicesQty (pyRandom s).2).2).1 + 1,
           (occLoop p rest (pyChoicesQty (pyRandom s).2).2).2)
        else occLoop p rest (pyRandom s).2 := rfl
    by_cases h : (pyRandom s).1 < p
    · rw [heq, if_pos h]
      obtain ⟨b1, b2, b3⟩ := ih (pyChoicesQty (pyRandom s).2).2
      refine ⟨by simp only [List.length_cons]; omega, fun hp => ?_,
        fun hp => by simp only [List.length_cons]; rw [b3 hp]⟩
      exact absurd h (not_lt.mpr (le_trans hp (pyRandom_nonneg s)))
    · rw [heq, if_neg h]
      obtain ⟨b1, b2, b3⟩ := ih (pyRandom s).2
      refine ⟨by simp only [List.length_cons]; omega, b2, fun hp => ?_⟩
      exact absurd (lt_of_lt_of_le (pyRandom_lt_one s) hp) h

/-- Helper: concatenating two consecutive index ranges. -/
theorem range'_concat (s m n : Nat) :
    List.range' s m ++ List.range' (s + m) n = List.range' s (m + n) := by
  have h := List.range'_append s m n 1
  simp only [Nat.one_mul] at h
  rw [h, Nat.add_comm n m]

/-- Helper: the day loop of the sales generator: counter, consecutive
transaction ids, per-row quantity/revenue facts, and agreement with the
ghost occurrence counter. -/
theorem daysLoop_spec (products : List Product) (p : ℚ) :
    ∀ (n date c : Nat) (s : RState),
    (daysLoop products p n date c s).2.1 =
      c + (daysLoop products p n date c s).1.length ∧
    (daysLoop products p n date c s).1.map (·.transaction_id) =
      (List.range' (c + 1) (daysLoop products p n date c s).1.length).map
        txnId ∧
    (∀ sale ∈ (daysLoop products p n date c s).1,
      sale.quantity ∈ ([1, 2, 3, 4, 5] : List Int) ∧
      revenueConsistent sale) ∧
    (daysLoop products p n date c s).1.length =
      (occDays products p n s).1 := by
  intro n
  induction n with
  | zero =>
    intro date c s
    exact ⟨by simp [daysLoop], by simp [daysLoop, List.range'],
      by simp [daysLoop], by simp [daysLoop, occDays]⟩
  | succ n ih =>
    intro date c s
    obtain ⟨s1, s2, s3, s4, s5⟩ := salesLoop_spec p products date c s
    obtain ⟨d1, d2, d3, d4⟩ := ih (date + 1)
      (salesLoop p products date c s).2.1 (salesLoop p products date c s).2.2
    have heq : daysLoop products p (n + 1) date c s =
        ((salesLoop p products date c s).1 ++
          (daysLoop products p n (date + 1) (salesLoop p products date c s).2.1
            (salesLoop p products date c s).2.2).1,
         (daysLoop products p n (date + 1) (salesLoop p products date c s).2.1
            (salesLoop p products date c s).2.2).2.1,
         (daysLoop products p n (date + 1) (salesLoop p products date c s).2.1
            (salesLoop p products date c s).2.2).2.2) := rfl
    have hocc : occDays products p (n + 1) s =
        ((occLoop p products s).1 +
          (occDays products p n (occLoop p products s).2).1,
         (occDays products p n (occLoop p products s).2).2) := rfl
    rw [heq, hocc]
    refine ⟨?_, ?_, ?_, ?_⟩
    · simp only [List.length_append]
      omega
    · simp only [List.map_append, List.length_append]
      rw [s2, d2, s1, ← List.map_append]
      refine congrArg _ ?_
      have hstart : c + (salesLoop p products date c s).1.length + 1 =
          c + 1 + (salesLoop p products date c s).1.length := by omega
      rw [hstart]
      exact range'_concat (c + 1) _ _
    · intro sale hs
      rcases List.mem_append.mp hs with hs | hs
      · exact s3 sale hs
      · exact d3 sale hs
    · simp only [List.length_append]
      rw [s4, d4, s5]

/-- Helper: bounds for the ghost occurrence counter over a day range. -/
theorem occDays_bounds (products : List Product) (p : ℚ) :
    ∀ (n : Nat) (s : RState),
    (occDays products p n s).1 ≤ n * products.length ∧
    (p ≤ 0 → (occDays products p n s).1 = 0) ∧
    (1 ≤ p → (occDays products p n s).1 = n * products.length) := by
  intro n
  induction n with
  | zero => intro s; simp [occDays]
  | succ n ih =>
    intro s
    have hocc : occDays products p (n + 1) s =
        ((occLoop p products s).1 +
          (occDays products p n (occLoop p products s).2).1,
         (occDays products p n (occLoop p products s).2).2) := rfl
    rw [hocc]
    obtain ⟨a1, a2, a3⟩ := occLoop_bounds p products s
    obtain ⟨b1, b2, b3⟩ := ih (occLoop p products s).2
    rw [Nat.succ_mul]
    exact ⟨by omega, fun hp => by rw [a2 hp, b2 hp], fun hp => by
      rw [a3 hp, b3 hp]; omega⟩

/-- C5: every row produced by the baseline sales generator satisfies
`revenue = round(quantity * unit_price, 2)` (exactly, in the exact-rational
model — hence within any tolerance), and each built-in enrichment effect
(`quantity_boost`, `probability_boost`, `combined_boost`) preserves the
invariant: pre-cutover rows pass through, post-cutover rows have their
revenue recomputed from the new quantity. -/
theorem revenue_consistency (g : Nat → Nat → Nat) (products : List Product)
    (date_start date_end : Nat) (seed : Option Nat) (sale_probability : ℚ)
    (s0 : RState) (sale : Sale) (cutover : Nat) (effect_size : ℚ) :
    (∀ row ∈ (generate_sales_data g products date_start date_end seed
        sale_probability s0).1, revenueConsistent row) ∧
    (revenueConsistent sale →
      revenueConsistent (quantity_boost sale cutover effect_size) ∧
      revenueConsistent (probability_boost sale cutover effect_size) ∧
      revenueConsistent (combined_boost sale cutover effect_size)) := by
  constructor
  · intro row hrow
    cases seed with
    | none =>
      exact ((daysLoop_spec products sale_probability
        (date_end + 1 - date_start) date_start 0 s0).2.2.1 row hrow).2
    | some sd =>
      exact ((daysLoop_spec products sale_probability
        (date_end + 1 - date_start) date_start 0 (pySeed g sd)).2.2.1
          row hrow).2
  · intro hc
    refine ⟨?_, ?_, ?_⟩
    · by_cases hd : cutover ≤ sale.date
      · simp only [quantity_boost, if_pos hd]
        rfl
      · simp only [quantity_boost, if_neg hd]
        exact hc
    · by_cases hd : cutover ≤ sale.date
      · simp only [probability_boost, quantity_boost, if_pos hd]
        rfl
      · simp only [probability_boost, quantity_boost, if_neg hd]
        exact hc
    · by_cases hd : cutover ≤ sale.date
      · simp only [combined_boost, if_pos hd]
        rfl
      · simp only [combined_boost, if_neg hd]
        exact hc

/-- C5 witness: a concrete consistent row stays consistent through
`quantity_boost` and `combined_boost` at cutover day 3 with effect size
one half. -/
theorem revenue_consistency_witness :
    revenueConsistent saleFix ∧
    revenueConsistent (quantity_boost saleFix 3 (1 / 2)) ∧
    revenueConsistent (combined_boost saleFix 3 (1 / 2)) := by
  have hc : revenueConsistent saleFix := by
    unfold revenueConsistent saleFix pyRound2 roundHalfEven
    norm_num
  have h := (revenue_consistency gFix [] 0 0 (some 0) 1 rsFix saleFix 3
    (1 / 2)).2 hc
  exact ⟨hc, h.1, h.2.2⟩

/-- C8 counterexample: the cited rule-based metrics generator
`simulate_metrics_rule_based` emits a row for every (day, product) pair.
With `sale_prob = 0` — so no Bernoulli occurrence draw can succeed — over
one product and one day it still emits one row, with quantity 0 and
revenue 0.0 (and its rows carry no transaction id at all), so a row is
emitted on non-occurrence. -/
theorem metrics_row_emitted_on_nonoccurrence :
    (simulate_metrics_rule_based gFix [prodFix] 0 0 0 none rsFix).1.map
      (fun r => (r.quantity, r.revenue)) = [(0, 0)] := by
  have hu : ¬((pyRandom rsFix).1 < 0) := not_lt.mpr (pyRandom_nonneg rsFix)
  simp [simulate_metrics_rule_based, metricsDaysLoop, metricsLoop, hu]

/-- C8 amended: in the sales generator `generate_sales_data`, transaction
ids are `TXN000001, TXN000002, …` assigned consecutively from 1 in strict
(day, product) visitation order, every emitted quantity lies in the
weighted population `{1, 2, 3, 4, 5}`, and the number of emitted rows
equals the number of successful Bernoulli occurrence draws (no row for
non-occurrence): in particular no rows at all when `sale_probability ≤ 0`
and one row per (day, product) pair when `sale_probability ≥ 1`.  The
separate rule-based metrics generator (see the counterexample) instead
emits a zero-quantity row for every non-occurrence and assigns no
transaction ids. -/
theorem generate_sales_structure (g : Nat → Nat → Nat)
    (products : List Product) (date_start date_end : Nat)
    (seed : Option Nat) (sale_probability : ℚ) (s0 : RState) :
    (generate_sales_data g products date_start date_end seed
        sale_probability s0).1.map (·.transaction_id) =
      (List.range' 1 (generate_sales_data g products date_start date_end
        seed sale_probability s0).1.length).map txnId ∧
    (∀ sale ∈ (generate_sales_data g products date_start date_end seed
        sale_probability s0).1,
      sale.quantity ∈ ([1, 2, 3, 4, 5] : List Int)) ∧
    (generate_sales_data g products date_start date_end seed
        sale_probability s0).1.length =
      occurrenceCount g products date_start date_end seed sale_probability
        s0 ∧
    (sale_probability ≤ 0 → (generate_sales_data g products date_start
      date_end seed sale_probability s0).1 = []) ∧
    (1 ≤ sale_probability → (generate_sales_data g products date_start
        date_end seed sale_probability s0).1.length =
      (date_end + 1 - date_start) * products.length) := by
  cases seed with
  | none =>
    obtain ⟨d1, d2, d3, d4⟩ := daysLoop_spec products sale_probability
      (date_end + 1 - date_start) date_start 0 s0
    obtain ⟨b1, b2, b3⟩ := occDays_bounds products sale_probability
      (date_end + 1 - date_start) s0
    have hgen : (generate_sales_data g products date_start date_end none
        sale_probability s0).1.length =
        (daysLoop products sale_probability (date_end + 1 - date_start)
          date_start 0 s0).1.length := rfl
    refine ⟨by simpa using d2, fun sale hs => (d3 sale hs).1, d4, ?_, ?_⟩
    · intro hp
      have hz : (generate_sales_data g products date_start date_end none
          sale_probability s0).1.length = 0 := by
        rw [hgen, d4, b2 hp]
      exact List.length_eq_zero.mp hz
    · intro hp
      rw [hgen, d4, b3 hp]
  | some sd =>
    obtain ⟨d1, d2, d3, d4⟩ := daysLoop_spec products sale_probability
      (date_end + 1 - date_start) date_start 0 (pySeed g sd)
    obtain ⟨b1, b2, b3⟩ := occDays_bounds products sale_probability
      (date_end + 1 - date_start) (pySeed g sd)
    refine ⟨by simpa using d2, fun sale hs => (d3 sale hs).1, d4, ?_, ?_⟩
    · intro hp
      have : (generate_sales_data g products date_start date_end (some sd)
          sale_probability s0).1.length = 0 := by
        rw [show (generate_sales_data g products date_start date_end
          (some sd) sale_probability s0).1.length =
          (daysLoop products sale_probability (date_end + 1 - date_start)
            date_start 0 (pySeed g sd)).1.length from rfl, d4, b2 hp]
      exact List.length_eq_zero.mp this
    · intro hp
      rw [show (generate_sales_data g products date_start date_end
        (some sd) sale_probability s0).1.length =
        (daysLoop products sale_probability (date_end + 1 - date_start)
          date_start 0 (pySeed g sd)).1.length from rfl, d4, b3 hp]

/-- C8 witness: with one product, a one-day range and probability 1 the
generator emits exactly one row with id `TXN000001`; with probability 0 it
emits none. -/
theorem generate_sales_structure_witness :
    (generate_sales_data gFix [prodFix] 0 0 (some 0) 1 rsFix).1.length = 1 ∧
    (generate_sales_data gFix [prodFix] 0 0 (some 0) 1 rsFix).1.map
      (·.transaction_id) = ["TXN000001"] ∧
    (generate_sales_data gFix [prodFix] 0 0 (some 0) 0 rsFix).1 = [] := by
  have h := generate_sales_structure gFix [prodFix] 0 0 (some 0) 1 rsFix
  have hlen : (generate_sales_data gFix [prodFix] 0 0 (some 0) 1
      rsFix).1.length = 1 := by
    have h5 := h.2.2.2.2 le_rfl
    simpa using h5
  refine ⟨hlen, ?_, ?_⟩
  · rw [h.1, hlen]
    rfl
  · exact (generate_sales_structure gFix [prodFix] 0 0 (some 0) 0
      rsFix).2.2.2.1 le_rfl

/-- Helper: `strGe` is exactly the reversed string order, so sorting by it
is sorting descending. -/
theorem strGe_iff (a b : String) : strGe a b ↔ b ≤ a := by
  show ¬(a.toList < b.toList) ↔ b ≤ a
  rw [← String.lt_iff_toList_lt]
  exact not_lt

/-- C9: `list_jobs` returns the job-directory names (directories whose
name begins with `"job-"`), sorted descending by job-id string — newest
first for the timestamp-prefixed id format; `cleanup_old_jobs` returns
`[]` and removes nothing when at most `keep_count` jobs exist, and
otherwise returns exactly the jobs beyond the `keep_count` most recent in
that ordering and removes exactly the directory entries with those
names. -/
theorem jobs_listing_cleanup (entries : List DirEntry) (keep_count : Nat) :
    (list_jobs entries).Sorted strGe ∧
    List.Perm (list_jobs entries)
      ((entries.filter fun e => e.isDir && pyStartsWith e.name "job-").map
        (·.name)) ∧
    ((list_jobs entries).length ≤ keep_count →
      cleanup_old_jobs entries keep_count = ([], entries)) ∧
    (keep_count < (list_jobs entries).length →
      (cleanup_old_jobs entries keep_count).1 =
        (list_jobs entries).drop keep_count ∧
      ∀ e, e ∈ (cleanup_old_jobs entries keep_count).2 ↔
        e ∈ entries ∧ e.name ∉ (list_jobs entries).drop keep_count) := by
  refine ⟨List.sorted_insertionSort strGe _, List.perm_insertionSort strGe _,
    fun hle => ?_, fun hgt => ?_⟩
  · rw [cleanup_old_jobs, if_pos hle]
  · rw [cleanup_old_jobs, if_neg (not_le.mpr hgt)]
    refine ⟨rfl, fun e => ?_⟩
    simp [List.mem_filter]

/-- C9 witness: on a directory with two job directories, one non-job
directory and one plain `job-` file, keeping 1 job removes exactly the
older job, and keeping 5 removes nothing. -/
theorem jobs_listing_cleanup_witness :
    (cleanup_old_jobs entriesFix 1).1 = (list_jobs entriesFix).drop 1 ∧
    cleanup_old_jobs entriesFix 5 = ([], entriesFix) := by
  have h1 := jobs_listing_cleanup entriesFix 1
  have h5 := jobs_listing_cleanup entriesFix 5
  refine ⟨(h1.2.2.2 ?_).1, h5.2.2.1 ?_⟩
  · rw [h1.2.1.length_eq]
    decide
  · rw [h5.2.1.length_eq]
    decide
